import Mathlib

/-
Verification development for the review aggregation pipeline in
mlops/scripts/scraping/review_scraper.py.

The Python functions are shallowly embedded as Lean functions over a
Json value type.  Python exceptions are modelled with Except/Option:
a collaborator response is `Except PyErr Json` (an HTTP/transport or
json() failure is `.error`), attribute errors raised by duck typing
(e.g. calling .get on a non-dict) are produced by the embedded
operations themselves, and the source's try/except blocks become
explicit handlers.
-/

/-- Kinds of Python exceptions that the embedded code can raise or catch. -/
inductive PyErr where
  | attributeError
  | requestException
  | otherError
deriving Repr, DecidableEq

/-- Python/JSON values flowing through the scraper (None, bool, int, str, list, dict). -/
inductive Json where
  | null : Json
  | bool : Bool → Json
  | num : Int → Json
  | str : String → Json
  | arr : List Json → Json
  | obj : List (String × Json) → Json

/-- Python truthiness of a value (`if x:`). -/
def Json.truthy : Json → Bool
  | .null => false
  | .bool b => b
  | .num n => n != 0
  | .str s => s != ""
  | .arr l => !l.isEmpty
  | .obj kvs => !kvs.isEmpty

/-- Dict attribute access `d[k]`/`d.get(k)` as a total function: the value under
the key, `null` when the key is missing or the value is not a dict. -/
def Json.attr : Json → String → Json
  | .obj kvs, k => (kvs.lookup k).getD .null
  | _, _ => .null

/-- Dict access `d.get(k, default)` as a total function with an explicit default. -/
def Json.attrD : Json → String → Json → Json
  | .obj kvs, k, dflt => (kvs.lookup k).getD dflt
  | _, _, dflt => dflt

/-- Python `x.get(k)`: returns the value (or None) on dicts, raises
AttributeError on any other value. -/
def Json.pyGet : Json → String → Except PyErr Json
  | .obj kvs, k => .ok ((kvs.lookup k).getD .null)
  | _, _ => .error .attributeError

/-- Python `x.get(k, default)`: like `pyGet` with an explicit default. -/
def Json.pyGetD : Json → String → Json → Except PyErr Json
  | .obj kvs, k, dflt => .ok ((kvs.lookup k).getD dflt)
  | _, _, _ => .error .attributeError

/-- View of a Json value as a string, when it is one. -/
def Json.asStr : Json → Option String
  | .str s => some s
  | _ => none

/-- Characters stripped by Python's `str.strip()` (the ASCII whitespace subset). -/
def isPySpace (c : Char) : Bool :=
  c == ' ' || c == '\t' || c == '\n' || c == '\r' || c == '\x0b' || c == '\x0c'

/-- Python `s.strip()`: remove leading and trailing whitespace. -/
def pyStrip (s : String) : String :=
  ⟨((s.data.dropWhile isPySpace).reverse.dropWhile isPySpace).reverse⟩

/-- Boolean prefix test on character lists. -/
def leadsWith : List Char → List Char → Bool
  | [], _ => true
  | _ :: _, [] => false
  | p :: ps, c :: cs => p == c && leadsWith ps cs

/-- Python `s.startswith(pre)`. -/
def pyStartsWith (s pre : String) : Bool := leadsWith pre.data s.data

/-- Python `s.endswith(suf)`. -/
def pyEndsWith (s suf : String) : Bool := leadsWith suf.data.reverse s.data.reverse

/-- Python `c in s` for a single character `c`. -/
def pyContainsChar (s : String) (c : Char) : Bool := s.data.contains c

/-- Python `netloc.replace("www.", "")`: remove every (left-to-right,
non-overlapping) occurrence of the substring `www.`. -/
def removeWWW : List Char → List Char
  | 'w' :: 'w' :: 'w' :: '.' :: rest => removeWWW rest
  | c :: rest => c :: removeWWW rest
  | [] => []

/-- String version of `removeWWW`. -/
def removeWWWStr (s : String) : String := ⟨removeWWW s.data⟩

/-- The sentinel source label used throughout `_get_domain_name`. -/
def unknownSource : String := "Unknown Source"

/-- The scheme test `url.startswith(("http://", "https://", "ftp://"))`,
returning the matched prefix. -/
def schemePrefix (url : String) : Option String :=
  if pyStartsWith url "http://" then some "http://"
  else if pyStartsWith url "https://" then some "https://"
  else if pyStartsWith url "ftp://" then some "ftp://"
  else none

/-- The authority (netloc) component computed by `urllib.parse.urlparse`:
for a URL carrying one of the three recognized schemes, the text after
`scheme://` up to the first `/`, `?` or `#`; empty otherwise.  Only
strings of these forms (or `""`) ever reach `urlparse` in the source. -/
def urlparseNetloc (url : String) : String :=
  match schemePrefix url with
  | some p => ⟨(url.data.drop p.length).takeWhile (fun c => (c != '/') && (c != '?') && (c != '#'))⟩
  | none => ""

/-- Lines 92–95 of `_get_domain_name`: parse, reject an absent netloc,
then `netloc.replace("www.", "")`. -/
def stripAuthority (u : String) : String :=
  let nl := urlparseNetloc u
  if nl = "" then unknownSource else removeWWWStr nl

/-- Embedding of `_get_domain_name` (review_scraper.py lines 78–98). -/
def getDomainName (url : String) : String :=
  if (url != "") && !(schemePrefix url).isSome then
    if pyStartsWith url "www." then
      stripAuthority ("http://" ++ url)
    else if pyContainsChar url '.' && !(pyStartsWith url ".") && !(pyEndsWith url ".") then
      stripAuthority ("http://" ++ url)
    else unknownSource
  else
    stripAuthority url

/-- `_get_domain_name` as called on an arbitrary Python value: a non-string
argument raises inside the resolver's try block (AttributeError on
`.startswith`/`urlparse`), which the resolver catches, returning the sentinel. -/
def getDomainNameJ : Json → String
  | .str s => getDomainName s
  | _ => unknownSource

/-- The embedded resolver reproduces every assertion of the repository's
own unit test `test_get_domain_name`. -/
theorem getDomainName_matches_repo_unit_tests :
    getDomainName "http://www.example.com/page" = "example.com" ∧
    getDomainName "https://sub.example.co.uk/path?q=1" = "sub.example.co.uk" ∧
    getDomainName "ftp://example.com" = "example.com" ∧
    getDomainName "www.nohttp.com" = "nohttp.com" ∧
    getDomainName "bare.domain.com/path" = "bare.domain.com" ∧
    getDomainName "http://localhost:8000" = "localhost:8000" ∧
    getDomainName "invalid-url" = "Unknown Source" ∧
    getDomainName "" = "Unknown Source" ∧
    getDomainName "http://" = "Unknown Source" ∧
    getDomainName "..." = "Unknown Source" := by
  refine ⟨?_, ?_, ?_, ?_, ?_, ?_, ?_, ?_, ?_, ?_⟩ <;> decide

/-- The list comprehension in `_search_for_review_pages` (lines 123–127):
reduce each raw search result to an url/title pair, keeping only results
whose `url` is truthy; `r.get(...)` raises on non-dict elements. -/
def extractDescriptors : List Json → Except PyErr (List Json)
  | [] => .ok []
  | r :: rs =>
    match r.pyGet "url" with
    | .error e => .error e
    | .ok u =>
      if u.truthy then
        match r.pyGetD "title" (.str "Unknown Source") with
        | .error e => .error e
        | .ok t =>
          match extractDescriptors rs with
          | .error e => .error e
          | .ok rest => .ok (.obj [("url", u), ("title", t)] :: rest)
      else extractDescriptors rs

/-- Body of the try block of `_search_for_review_pages` (lines 116–132),
from the collaborator response onward.  The response argument is the
outcome of `SESSION.post(...) / raise_for_status / .json()`: `.error`
for a transport or decode failure, `.ok` with the decoded value otherwise. -/
def searchBody (resp : Except PyErr Json) : Except PyErr (List Json) :=
  match resp with
  | .error e => .error e
  | .ok sr =>
    if sr.truthy then
      match sr.pyGet "data" with
      | .error e => .error e
      | .ok (.arr l) => extractDescriptors l
      | .ok _ => .ok []
    else .ok []

/-- Embedding of `_search_for_review_pages` (lines 101–144): the try body
with the two except handlers, which catch every exception and return `[]`. -/
def searchForReviewPages (resp : Except PyErr Json) : List Json :=
  match searchBody resp with
  | .ok l => l
  | .error _ => []

/-- The if/elif chain of `_scrape_reviews_from_page` (lines 176–192)
choosing `extracted_data`: `data.llm_extraction` when it is a list, else
`data.extracted_data` when it is a list, else None. -/
def chooseExtractedCode (spd : Json) : Except PyErr (Option (List Json)) :=
  if spd.truthy then
    match spd.pyGet "data" with
    | .error e => .error e
    | .ok (.obj dk) =>
      match (dk.lookup "llm_extraction").getD .null with
      | .arr l => .ok (some l)
      | _ =>
        match (dk.lookup "extracted_data").getD .null with
        | .arr l => .ok (some l)
        | _ => .ok none
    | .ok _ => .ok none
  else .ok none

/-- The record loop of `_scrape_reviews_from_page` (lines 199–212):
walk the (already truncated) raw records, keep dict records with truthy
`review_text`, build the normalized review.  A truthy non-string
`review_text` raises AttributeError on `.strip()`; the records appended
before that point survive (the handler is outside the loop), so the
result is the accumulated list paired with the exception, if any. -/
def processRecords (pageUrl : Json) : List Json → List Json × Option PyErr
  | [] => ([], none)
  | r :: rs =>
    match r with
    | .obj kvs =>
      match (kvs.lookup "review_text").getD .null with
      | .str s =>
        if s != "" then
          let rn := (kvs.lookup "reviewer_name").getD .null
          let fullReview := Json.obj [
            ("source_name", if rn.truthy then rn else .str (getDomainNameJ pageUrl)),
            ("review_text", .str (pyStrip s)),
            ("original_score", (kvs.lookup "original_score").getD .null),
            ("review_url", pageUrl)]
          let out := processRecords pageUrl rs
          (fullReview :: out.1, out.2)
        else processRecords pageUrl rs
      | rt =>
        if rt.truthy then ([], some .attributeError)
        else processRecords pageUrl rs
    | _ => processRecords pageUrl rs

/-- `_scrape_reviews_from_page` (lines 147–228) with the caught exception
made visible: the returned list is `page_reviews` at function exit, the
second component records whether the try block raised.  `maxPerSite`
models `max_reviews_per_site`, `resp` the scrape collaborator response. -/
def scrapeWithStatus (pageUrl : Json) (maxPerSite : Nat) (resp : Except PyErr Json) :
    List Json × Option PyErr :=
  match resp with
  | .error e => ([], some e)
  | .ok spd =>
    match chooseExtractedCode spd with
    | .error e => ([], some e)
    | .ok none => ([], none)
    | .ok (some l) =>
      if l.isEmpty then ([], none)
      else processRecords pageUrl (l.take maxPerSite)

/-- Embedding of `_scrape_reviews_from_page` as its caller sees it:
`return page_reviews` runs after the except handlers, so the accumulated
records are returned whether or not an exception was caught. -/
def scrapeReviewsFromPage (pageUrl : Json) (maxPerSite : Nat) (resp : Except PyErr Json) :
    List Json :=
  (scrapeWithStatus pageUrl maxPerSite resp).1

/-- The inner append loop of `fetch_reviews_for_item` (lines 311–315):
append records one by one while the accumulator is below the global cap. -/
def appendUpTo (maxTotal : Nat) : List Json → List Json → List Json
  | acc, [] => acc
  | acc, r :: rs =>
    if acc.length < maxTotal then appendUpTo maxTotal (acc ++ [r]) rs else acc

/-- The descriptor loop of `fetch_reviews_for_item` (lines 287–315),
instrumented: alongside the accumulator it returns, per extraction-
collaborator invocation, the descriptor passed and the accumulator length
at the moment of the call.  `scrapeResp` gives the collaborator response
for each page url. -/
def fetchLoopTrace (maxTotal maxPerSite : Nat) (scrapeResp : Json → Except PyErr Json) :
    List Json → List Json → List Json × List (Json × Nat)
  | [], acc => (acc, [])
  | result :: rest, acc =>
    if maxTotal ≤ acc.length then (acc, [])
    else
      let pageUrl := result.attr "url"
      if pageUrl.truthy then
        let out := fetchLoopTrace maxTotal maxPerSite scrapeResp rest
          (appendUpTo maxTotal acc (scrapeReviewsFromPage pageUrl maxPerSite (scrapeResp pageUrl)))
        (out.1, (result, acc.length) :: out.2)
      else
        fetchLoopTrace maxTotal maxPerSite scrapeResp rest acc

/-- Embedding of `fetch_reviews_for_item` (lines 231–324).  `maxTotal` is
the config value `max_total_reviews_per_item`; the config lookup, prompt
and schema construction have no further semantic effect here.  The search
and extraction collaborators appear as their responses. -/
def fetchReviewsForItem (maxTotal maxSearch maxPerSite : Nat)
    (searchResp : Except PyErr Json) (scrapeResp : Json → Except PyErr Json) : List Json :=
  let searchResults := searchForReviewPages searchResp
  if searchResults.isEmpty then []
  else (fetchLoopTrace maxTotal maxPerSite scrapeResp (searchResults.take maxSearch) []).1

/-- The sequence of extraction-collaborator invocations made by
`fetch_reviews_for_item`, with the accumulated count at each call. -/
def fetchTrace (maxTotal maxSearch maxPerSite : Nat)
    (searchResp : Except PyErr Json) (scrapeResp : Json → Except PyErr Json) :
    List (Json × Nat) :=
  let searchResults := searchForReviewPages searchResp
  if searchResults.isEmpty then []
  else (fetchLoopTrace maxTotal maxPerSite scrapeResp (searchResults.take maxSearch) []).2

/-- The append loop keeps exactly the prefix of the page's records that
fits below the global cap. -/
theorem appendUpTo_eq_append_take (m : Nat) (rs acc : List Json) :
    appendUpTo m acc rs = acc ++ rs.take (m - acc.length) := by
  induction rs generalizing acc with
  | nil => simp [appendUpTo]
  | cons r rs ih =>
    simp only [appendUpTo]
    by_cases h : acc.length < m
    · rw [if_pos h, ih]
      have h1 : m - acc.length = (m - (acc ++ [r]).length) + 1 := by
        simp only [List.length_append, List.length_singleton]
        omega
      rw [h1, List.take_succ_cons]
      simp
    · rw [if_neg h]
      have h0 : m - acc.length = 0 := by omega
      simp [h0]

/-- The append loop never pushes the accumulator past the global cap. -/
theorem appendUpTo_length_le (m : Nat) (rs acc : List Json) (h : acc.length ≤ m) :
    (appendUpTo m acc rs).length ≤ m := by
  rw [appendUpTo_eq_append_take]
  simp only [List.length_append, List.length_take]
  omega

/-- The descriptor loop never grows the accumulator past the global cap. -/
theorem fetchLoopTrace_fst_length_le (mt mp : Nat) (scr : Json → Except PyErr Json)
    (l acc : List Json) (h : acc.length ≤ mt) :
    ((fetchLoopTrace mt mp scr l acc).1).length ≤ mt := by
  induction l generalizing acc with
  | nil => simpa [fetchLoopTrace] using h
  | cons result rest ih =>
    simp only [fetchLoopTrace]
    split
    · exact h
    · split
      · exact ih _ (appendUpTo_length_le _ _ _ h)
      · exact ih _ h

/-- C1: for every configuration and whatever the search and extraction
collaborators return, `fetch_reviews_for_item` returns at most
`max_total_reviews_per_item` records; and when a page yields more records
than the remaining quota, only the prefix filling the remaining quota is
appended, so the global cap is never exceeded. -/
theorem fetch_reviews_respects_global_cap :
    (∀ maxTotal maxSearch maxPerSite searchResp scrapeResp,
      (fetchReviewsForItem maxTotal maxSearch maxPerSite searchResp scrapeResp).length ≤ maxTotal) ∧
    (∀ maxTotal acc rs, appendUpTo maxTotal acc rs = acc ++ rs.take (maxTotal - acc.length)) := by
  refine ⟨fun mt ms mp sR scR => ?_, fun m acc rs => appendUpTo_eq_append_take m rs acc⟩
  unfold fetchReviewsForItem
  dsimp only
  split
  · simp
  · exact fetchLoopTrace_fst_length_le mt mp scR _ [] (Nat.zero_le mt)

/-- Every recorded extraction call processes a descriptor from the pending
list, at a moment when the accumulator is still below the cap. -/
theorem fetchLoopTrace_snd_mem (mt mp : Nat) (scr : Json → Except PyErr Json)
    (l acc : List Json) (p : Json × Nat) (hp : p ∈ (fetchLoopTrace mt mp scr l acc).2) :
    p.1 ∈ l ∧ p.2 < mt := by
  induction l generalizing acc with
  | nil => simp [fetchLoopTrace] at hp
  | cons result rest ih =>
    simp only [fetchLoopTrace] at hp
    split at hp
    · simp at hp
    · next hb =>
      split at hp
      · simp only [List.mem_cons] at hp
        rcases hp with h1 | h2
        · rw [h1]
          exact ⟨List.mem_cons_self _ _, by omega⟩
        · have h3 := ih _ h2
          exact ⟨List.mem_cons_of_mem _ h3.1, h3.2⟩
      · have h3 := ih _ hp
        exact ⟨List.mem_cons_of_mem _ h3.1, h3.2⟩

/-- C4: in every call to `fetch_reviews_for_item`, the extraction
collaborator is only invoked for descriptors among the first
`max_search_results_to_process` search results, and only while the
accumulated review count is still strictly below
`max_total_reviews_per_item` (iteration stops before processing
a descriptor once the cap is reached). -/
theorem fetch_extraction_calls_bounded :
    ∀ maxTotal maxSearch maxPerSite searchResp scrapeResp (p : Json × Nat),
      p ∈ fetchTrace maxTotal maxSearch maxPerSite searchResp scrapeResp →
      p.1 ∈ (searchForReviewPages searchResp).take maxSearch ∧ p.2 < maxTotal := by
  intro mt ms mp sR scR p hp
  unfold fetchTrace at hp
  dsimp only at hp
  split at hp
  · simp at hp
  · exact fetchLoopTrace_snd_mem _ _ _ _ _ _ hp

/-- Search collaborator response used by the concrete witness scenarios:
one result page. -/
def sampleSearchResp : Except PyErr Json :=
  .ok (.obj [("data", .arr [.obj [("url", .str "http://site1.com/rev"), ("title", .str "S1")]])])

/-- Extraction collaborator response used by the concrete witness
scenarios: one well-formed review per page. -/
def sampleScrapeResp : Json → Except PyErr Json := fun _ =>
  .ok (.obj [("data", .obj [("llm_extraction", .arr
    [.obj [("reviewer_name", .str "Critic A"), ("review_text", .str "Amazing!")]])])])

/-- The descriptor that `_search_for_review_pages` produces from
`sampleSearchResp`. -/
def sampleDescriptor : Json :=
  .obj [("url", .str "http://site1.com/rev"), ("title", .str "S1")]

theorem fetch_extraction_calls_bounded_witness :
    ((sampleDescriptor, 0) ∈ fetchTrace 5 3 1 sampleSearchResp sampleScrapeResp) ∧
    (sampleDescriptor ∈ (searchForReviewPages sampleSearchResp).take 3 ∧ 0 < 5) := by
  have hm : (sampleDescriptor, 0) ∈ fetchTrace 5 3 1 sampleSearchResp sampleScrapeResp := by
    have he : fetchTrace 5 3 1 sampleSearchResp sampleScrapeResp = [(sampleDescriptor, 0)] := by rfl
    rw [he]
    exact List.mem_singleton.mpr rfl
  exact ⟨hm, fetch_extraction_calls_bounded 5 3 1 sampleSearchResp sampleScrapeResp _ hm⟩

/-- Every record emitted by the record loop is a review object built from
the page url: its `review_text` is the strip of some raw string and its
`source_name` is never None. -/
theorem processRecords_mem_shape (u : Json) (l : List Json) (x : Json)
    (hx : x ∈ (processRecords u l).1) :
    ∃ sn s os, x = Json.obj [("source_name", sn), ("review_text", .str (pyStrip s)),
      ("original_score", os), ("review_url", u)] ∧ sn ≠ Json.null := by
  induction l with
  | nil => simp [processRecords] at hx
  | cons r rs ih =>
    cases r with
    | null => simp only [processRecords] at hx; exact ih hx
    | bool b => simp only [processRecords] at hx; exact ih hx
    | num n => simp only [processRecords] at hx; exact ih hx
    | str s => simp only [processRecords] at hx; exact ih hx
    | arr l2 => simp only [processRecords] at hx; exact ih hx
    | obj kvs =>
      simp only [processRecords] at hx
      split at hx
      · next s hs =>
        split at hx
        · simp only [List.mem_cons] at hx
          rcases hx with h1 | h2
          · refine ⟨_, s, _, h1, ?_⟩
            split
            · next hrn =>
              intro hc
              rw [hc] at hrn
              simp [Json.truthy] at hrn
            · intro hc
              exact Json.noConfusion hc
          · exact ih h2
        · exact ih hx
      · split at hx
        · simp at hx
        · exact ih hx

/-- Records returned by `_scrape_reviews_from_page` all come from the
record loop over some raw list. -/
theorem scrape_mem_processRecords (u : Json) (n : Nat) (resp : Except PyErr Json) (x : Json)
    (hx : x ∈ scrapeReviewsFromPage u n resp) : ∃ l, x ∈ (processRecords u l).1 := by
  unfold scrapeReviewsFromPage scrapeWithStatus at hx
  split at hx
  · simp at hx
  · split at hx
    · simp at hx
    · simp at hx
    · split at hx
      · simp at hx
      · exact ⟨_, hx⟩

/-- Members of the capped append come from the accumulator or the page. -/
theorem appendUpTo_mem (m : Nat) (rs acc : List Json) (x : Json)
    (hx : x ∈ appendUpTo m acc rs) : x ∈ acc ∨ x ∈ rs := by
  induction rs generalizing acc with
  | nil => exact Or.inl (by simpa [appendUpTo] using hx)
  | cons r rs ih =>
    simp only [appendUpTo] at hx
    split at hx
    · rcases ih _ hx with h1 | h2
      · rcases List.mem_append.mp h1 with ha | hr
        · exact Or.inl ha
        · rw [List.mem_singleton.mp hr]
          exact Or.inr (List.mem_cons_self _ _)
      · exact Or.inr (List.mem_cons_of_mem _ h2)
    · exact Or.inl hx

/-- Members of the descriptor loop's accumulator come from the initial
accumulator or from some page scrape. -/
theorem fetchLoopTrace_fst_mem (mt mp : Nat) (scr : Json → Except PyErr Json)
    (l acc : List Json) (x : Json) (hx : x ∈ (fetchLoopTrace mt mp scr l acc).1) :
    x ∈ acc ∨ ∃ u, x ∈ scrapeReviewsFromPage u mp (scr u) := by
  induction l generalizing acc with
  | nil => exact Or.inl (by simpa [fetchLoopTrace] using hx)
  | cons result rest ih =>
    simp only [fetchLoopTrace] at hx
    split at hx
    · exact Or.inl hx
    · split at hx
      · dsimp only at hx
        rcases ih _ hx with h1 | h2
        · rcases appendUpTo_mem _ _ _ _ h1 with ha | hs
          · exact Or.inl ha
          · exact Or.inr ⟨_, hs⟩
        · exact Or.inr h2
      · exact ih _ hx

/-- Records returned by `fetch_reviews_for_item` all come from some page
scrape. -/
theorem fetch_mem_scrape (mt ms mp : Nat) (sR : Except PyErr Json)
    (scR : Json → Except PyErr Json) (x : Json)
    (hx : x ∈ fetchReviewsForItem mt ms mp sR scR) :
    ∃ u l, x ∈ (processRecords u l).1 := by
  unfold fetchReviewsForItem at hx
  dsimp only at hx
  split at hx
  · simp at hx
  · rcases fetchLoopTrace_fst_mem _ _ _ _ _ _ hx with h1 | ⟨u, h2⟩
    · simp at h1
    · rcases scrape_mem_processRecords _ _ _ _ h2 with ⟨l, h3⟩
      exact ⟨u, l, h3⟩

/-- C2 (amended): every record returned by `fetch_reviews_for_item` has a
`review_text` that is the whitespace-strip of some raw string (so it never
carries leading or trailing whitespace); raw records whose `review_text`
is missing or empty are discarded — but a whitespace-only `review_text`
passes the truthiness check and is emitted with empty text after
stripping, so non-emptiness does not hold. -/
theorem fetch_review_text_is_stripped :
    ∀ maxTotal maxSearch maxPerSite searchResp scrapeResp (x : Json),
      x ∈ fetchReviewsForItem maxTotal maxSearch maxPerSite searchResp scrapeResp →
      ∃ s, x.attr "review_text" = Json.str (pyStrip s) := by
  intro mt ms mp sR scR x hx
  rcases fetch_mem_scrape _ _ _ _ _ _ hx with ⟨u, l, h3⟩
  rcases processRecords_mem_shape _ _ _ h3 with ⟨sn, s, os, hEq, _⟩
  exact ⟨s, by rw [hEq]; rfl⟩

/-- Extraction response whose only record has whitespace-padded text. -/
def paddedScrapeResp : Json → Except PyErr Json := fun _ =>
  .ok (.obj [("data", .obj [("llm_extraction", .arr
    [.obj [("review_text", .str "  Bad!  ")]])])])

/-- The review `fetch_reviews_for_item` builds from `paddedScrapeResp`
behind `sampleSearchResp`. -/
def paddedReview : Json :=
  .obj [("source_name", .str "site1.com"), ("review_text", .str "Bad!"),
    ("original_score", .null), ("review_url", .str "http://site1.com/rev")]

theorem fetch_review_text_is_stripped_witness :
    (paddedReview ∈ fetchReviewsForItem 5 3 1 sampleSearchResp paddedScrapeResp) ∧
    (∃ s, paddedReview.attr "review_text" = Json.str (pyStrip s)) := by
  have hm : paddedReview ∈ fetchReviewsForItem 5 3 1 sampleSearchResp paddedScrapeResp := by
    have he : fetchReviewsForItem 5 3 1 sampleSearchResp paddedScrapeResp = [paddedReview] := by
      rfl
    rw [he]
    exact List.mem_singleton.mpr rfl
  exact ⟨hm, fetch_review_text_is_stripped 5 3 1 sampleSearchResp paddedScrapeResp _ hm⟩

/-- Extraction response whose only record has whitespace-only text. -/
def whitespaceScrapeResp : Except PyErr Json :=
  .ok (.obj [("data", .obj [("llm_extraction", .arr
    [.obj [("review_text", .str "   ")]])])])

/-- C2 counterexample: a raw record whose `review_text` is whitespace-only
is not discarded; it is emitted with empty `review_text` (the truthiness
check precedes stripping), contradicting the claimed invariant. -/
theorem scrape_emits_empty_text_for_whitespace_review :
    ((scrapeReviewsFromPage (.str "http://rev.com/p1") 5 whitespaceScrapeResp).map
      (fun r => (r.attr "review_text").asStr)) = [some ""] ∧
    (scrapeReviewsFromPage (.str "http://rev.com/p1") 5 whitespaceScrapeResp).length = 1 :=
  ⟨rfl, rfl⟩

/-- C8 (amended): every record returned by `fetch_reviews_for_item` has a
non-None `source_name` (the reviewer name when truthy, else the resolver
string) — but it need not be a non-empty string, since the domain
resolver can return the empty string. -/
theorem fetch_source_name_never_null :
    ∀ maxTotal maxSearch maxPerSite searchResp scrapeResp (x : Json),
      x ∈ fetchReviewsForItem maxTotal maxSearch maxPerSite searchResp scrapeResp →
      x.attr "source_name" ≠ Json.null := by
  intro mt ms mp sR scR x hx
  rcases fetch_mem_scrape _ _ _ _ _ _ hx with ⟨u, l, h3⟩
  rcases processRecords_mem_shape _ _ _ h3 with ⟨sn, s, os, hEq, hsn⟩
  rw [hEq]
  exact hsn

/-- The review `fetch_reviews_for_item` builds from `sampleScrapeResp`
behind `sampleSearchResp`. -/
def sampleReview : Json :=
  .obj [("source_name", .str "Critic A"), ("review_text", .str "Amazing!"),
    ("original_score", .null), ("review_url", .str "http://site1.com/rev")]

theorem fetch_source_name_never_null_witness :
    (sampleReview ∈ fetchReviewsForItem 5 3 1 sampleSearchResp sampleScrapeResp) ∧
    sampleReview.attr "source_name" ≠ Json.null := by
  have hm : sampleReview ∈ fetchReviewsForItem 5 3 1 sampleSearchResp sampleScrapeResp := by
    have he : fetchReviewsForItem 5 3 1 sampleSearchResp sampleScrapeResp = [sampleReview] := by
      rfl
    rw [he]
    exact List.mem_singleton.mpr rfl
  exact ⟨hm, fetch_source_name_never_null 5 3 1 sampleSearchResp sampleScrapeResp _ hm⟩

/-- Search response whose single result page has the degenerate url
`http://www.`. -/
def wwwSearchResp : Except PyErr Json :=
  .ok (.obj [("data", .arr [.obj [("url", .str "http://www."), ("title", .str "Reviews")]])])

/-- Extraction response with one review and no reviewer name. -/
def noNameScrapeResp : Json → Except PyErr Json := fun _ =>
  .ok (.obj [("data", .obj [("llm_extraction", .arr
    [.obj [("review_text", .str "Good.")]])])])

/-- C8 counterexample: with page url `http://www.` and no reviewer name,
`netloc.replace("www.", "")` erases the whole authority and
`fetch_reviews_for_item` returns a record whose `source_name` is the
empty string — not a non-empty string as claimed. -/
theorem fetch_source_name_can_be_empty :
    ((fetchReviewsForItem 5 3 1 wwwSearchResp noNameScrapeResp).map
      (fun r => (r.attr "source_name").asStr)) = [some ""] := rfl

/-- The validation test of the record loop (line 200): an object-shaped
record whose `review_text` is truthy. -/
def validRaw : Json → Bool
  | .obj kvs => ((kvs.lookup "review_text").getD .null).truthy
  | _ => false

/-- A record on which the loop body cannot raise: whenever its
`review_text` is truthy it is a string (otherwise `.strip()` raises). -/
def textWellTyped : Json → Bool
  | .obj kvs =>
    match (kvs.lookup "review_text").getD .null with
    | .str _ => true
    | rt => !rt.truthy
  | _ => true

/-- The normalized review built from one raw record (lines 201–207). -/
def normalizeRecord (pageUrl : Json) : Json → Json
  | .obj kvs =>
    let rn := (kvs.lookup "reviewer_name").getD .null
    Json.obj [
      ("source_name", if rn.truthy then rn else .str (getDomainNameJ pageUrl)),
      ("review_text", match (kvs.lookup "review_text").getD .null with
        | .str s => .str (pyStrip s)
        | rt => rt),
      ("original_score", (kvs.lookup "original_score").getD .null),
      ("review_url", pageUrl)]
  | j => j

/-- On raw records that cannot raise, the record loop is exactly
filter-by-validity then normalize. -/
theorem processRecords_eq_filter_map (u : Json) (m : List Json)
    (h : ∀ r ∈ m, textWellTyped r = true) :
    (processRecords u m).1 = (m.filter validRaw).map (normalizeRecord u) := by
  induction m with
  | nil => simp [processRecords]
  | cons r rs ih =>
    have hr := h r (List.mem_cons_self _ _)
    have hrs := ih fun a ha => h a (List.mem_cons_of_mem _ ha)
    cases r with
    | obj kvs =>
      rcases hrt : (kvs.lookup "review_text").getD .null with _ | b | n | s | l2 | kvs2
      · simp only [processRecords, hrt, Json.truthy, List.filter_cons, validRaw,
          Bool.false_eq_true, if_neg, ite_false]
        exact hrs
      · simp only [textWellTyped, hrt, Json.truthy] at hr
        simp only [processRecords, hrt, Json.truthy, List.filter_cons, validRaw]
        simp only [Bool.not_eq_true', Bool.not_eq_eq_eq_not, Bool.not_true] at hr
        simp [hr, hrs]
      · simp only [textWellTyped, hrt, Json.truthy] at hr
        simp only [processRecords, hrt, Json.truthy, List.filter_cons, validRaw]
        simp only [Bool.not_eq_true', Bool.not_eq_eq_eq_not, Bool.not_true] at hr
        simp [hr, hrs]
      · simp only [processRecords, hrt, List.filter_cons, validRaw, Json.truthy]
        cases hsne : (s != "") with
        | true =>
          simp only [hsne, if_true, List.map_cons]
          refine congrArg₂ _ ?_ hrs
          simp [normalizeRecord, hrt, Json.truthy]
        | false => simp [hsne, hrs]
      · simp only [textWellTyped, hrt, Json.truthy] at hr
        simp only [processRecords, hrt, Json.truthy, List.filter_cons, validRaw]
        simp only [Bool.not_eq_true', Bool.not_eq_eq_eq_not, Bool.not_true] at hr
        simp [hr, hrs]
      · simp only [textWellTyped, hrt, Json.truthy] at hr
        simp only [processRecords, hrt, Json.truthy, List.filter_cons, validRaw]
        simp only [Bool.not_eq_true', Bool.not_eq_eq_eq_not, Bool.not_true] at hr
        simp [hr, hrs]
    | null => simpa [processRecords, List.filter_cons, validRaw] using hrs
    | bool b => simpa [processRecords, List.filter_cons, validRaw] using hrs
    | num n => simpa [processRecords, List.filter_cons, validRaw] using hrs
    | str s => simpa [processRecords, List.filter_cons, validRaw] using hrs
    | arr l2 => simpa [processRecords, List.filter_cons, validRaw] using hrs

/-- C3 (amended): `_scrape_reviews_from_page` truncates before validating:
the per-page quota `max_reviews_per_site` is applied to the raw extracted
records first, and only the survivors of the quota are filtered for
validity — so invalid raw records do consume the per-page quota. -/
theorem scrape_take_then_filter :
    ∀ (pageUrl : Json) (maxPerSite : Nat) (l : List Json),
      (∀ r ∈ l.take maxPerSite, textWellTyped r = true) →
      scrapeReviewsFromPage pageUrl maxPerSite
        (.ok (.obj [("data", .obj [("llm_extraction", .arr l)])])) =
      ((l.take maxPerSite).filter validRaw).map (normalizeRecord pageUrl) := by
  intro u n l h
  cases l with
  | nil =>
    show ([] : List Json) = ((List.take n ([] : List Json)).filter validRaw).map (normalizeRecord u)
    simp
  | cons a as => exact processRecords_eq_filter_map u _ h

/-- Raw record list used by the C3 witness. -/
def wellTypedRawRecords : List Json := [.obj [("review_text", .str " Fine. ")]]

theorem scrape_take_then_filter_witness :
    (∀ r ∈ wellTypedRawRecords.take 2, textWellTyped r = true) ∧
    scrapeReviewsFromPage (.str "http://r.com") 2
        (.ok (.obj [("data", .obj [("llm_extraction", .arr wellTypedRawRecords)])])) =
      ((wellTypedRawRecords.take 2).filter validRaw).map (normalizeRecord (.str "http://r.com")) := by
  have hh : ∀ r ∈ wellTypedRawRecords.take 2, textWellTyped r = true := by decide
  exact ⟨hh, scrape_take_then_filter (.str "http://r.com") 2 wellTypedRawRecords hh⟩

/-- Raw record list with an invalid record first, a valid one second. -/
def invalidThenValid : List Json :=
  [.obj [("invalid", .str "x")], .obj [("review_text", .str "Fine.")]]

/-- C3 counterexample: with `max_reviews_per_site = 1` and raw records
[invalid, valid], the code keeps nothing (the invalid record consumed the
quota), while the claimed filter-then-truncate policy would keep one. -/
theorem scrape_truncates_before_validation :
    (scrapeReviewsFromPage (.str "http://r.com") 1
      (.ok (.obj [("data", .obj [("llm_extraction", .arr invalidThenValid)])]))).length = 0 ∧
    (((invalidThenValid.filter validRaw).take 1).map (normalizeRecord (.str "http://r.com"))).length = 1 :=
  ⟨rfl, rfl⟩

/-- C5 (amended): no exception escapes the two operations.  A search whose
try body raises anywhere returns the empty sequence; a scrape transport
error returns the empty sequence; a scrape always returns the records
accumulated before any caught exception — which, for an interpretation
error in mid-loop, can be non-empty rather than empty; and failure of the
search collaborator makes `fetch_reviews_for_item` return []. -/
theorem collaborator_errors_contained :
    (∀ resp e, searchBody resp = .error e → searchForReviewPages resp = []) ∧
    (∀ pageUrl maxPerSite e,
      scrapeReviewsFromPage pageUrl maxPerSite (.error e) = []) ∧
    (∀ pageUrl maxPerSite resp,
      scrapeReviewsFromPage pageUrl maxPerSite resp = (scrapeWithStatus pageUrl maxPerSite resp).1) ∧
    (∀ maxTotal maxSearch maxPerSite scrapeResp e,
      fetchReviewsForItem maxTotal maxSearch maxPerSite (.error e) scrapeResp = []) := by
  refine ⟨?_, fun u n e => rfl, fun u n resp => rfl, fun mt ms mp scr e => rfl⟩
  intro resp e h
  unfold searchForReviewPages
  rw [h]

theorem collaborator_errors_contained_witness :
    searchBody (.error .requestException) = .error .requestException ∧
    searchForReviewPages (.error .requestException) = [] :=
  ⟨rfl, collaborator_errors_contained.1 (.error .requestException) .requestException rfl⟩

/-- Extraction response whose second record has a non-string truthy
`review_text`, so `.strip()` raises after one record was appended. -/
def partialErrorResp : Except PyErr Json :=
  .ok (.obj [("data", .obj [("llm_extraction", .arr
    [.obj [("review_text", .str "Good film.")], .obj [("review_text", .num 5)]])])])

/-- C5 counterexample: an interpretation error inside
`_scrape_reviews_from_page` is caught, but the operation returns the one
record accumulated before the error — a non-empty sequence, not the empty
sequence the claim promises for any error. -/
theorem scrape_returns_partial_on_interpretation_error :
    (scrapeWithStatus (.str "http://a.com") 2 partialErrorResp).2 = some .attributeError ∧
    (scrapeReviewsFromPage (.str "http://a.com") 2 partialErrorResp).length = 1 :=
  ⟨rfl, rfl⟩

/-- Domain resolution following the words of claim C9, amended only where
the counterexample forces it: the final step removes EVERY occurrence of
`www.` from the authority (as `str.replace` does), not just a leading one. -/
def resolveAmendedC9 (url : String) : String :=
  if (schemePrefix url).isSome then stripAuthority url
  else if pyStartsWith url "www." ||
      (pyContainsChar url '.' && !(pyStartsWith url ".") && !(pyEndsWith url ".")) then
    stripAuthority ("http://" ++ url)
  else unknownSource

/-- Authority post-processing following the words of claim C9 exactly:
absent authority gives the sentinel, otherwise a LEADING `www.` is
stripped. -/
def stripLeadingWWW (u : String) : String :=
  let nl := urlparseNetloc u
  if nl = "" then unknownSource
  else if pyStartsWith nl "www." then ⟨nl.data.drop 4⟩ else nl

/-- Domain resolution following the words of claim C9 exactly (for
comparison with the code's behaviour). -/
def resolveSpecC9 (url : String) : String :=
  if (schemePrefix url).isSome then stripLeadingWWW url
  else if pyStartsWith url "www." ||
      (pyContainsChar url '.' && !(pyStartsWith url ".") && !(pyEndsWith url ".")) then
    stripLeadingWWW ("http://" ++ url)
  else unknownSource

/-- C9 (amended): `_get_domain_name` behaves as the claim describes —
scheme-carrying strings parsed directly, `www.`-prefixed or dotted bare
strings parsed after prepending `http://`, anything else (and any absent
authority) mapped to the sentinel — except that the final step removes
every occurrence of `www.` from the authority, not only a leading one.
The claim's four concrete examples all hold. -/
theorem domain_resolver_characterized :
    (∀ url, getDomainName url = resolveAmendedC9 url) ∧
    getDomainName "http://www.example.com/path" = "example.com" ∧
    getDomainName "" = "Unknown Source" ∧
    getDomainName "ftp://example.com" = "example.com" ∧
    getDomainName "justdomain.com" = "justdomain.com" := by
  refine ⟨fun url => ?_, by decide, by decide, by decide, by decide⟩
  unfold getDomainName resolveAmendedC9
  cases hs : (schemePrefix url).isSome with
  | true => simp [hs]
  | false =>
    cases he : (url != "") with
    | false =>
      have h0 : url = "" := by simpa using he
      subst h0
      decide
    | true =>
      simp only [he, hs, Bool.not_false, Bool.and_true, Bool.true_and, if_true]
      cases hw : pyStartsWith url "www." with
      | true => simp [hw]
      | false => simp [hw]

/-- C9 counterexample: on `http://e.www.net` the code returns `e.net`
(all `www.` occurrences removed), while the claim's description — the
authority with a leading `www.` stripped — gives `e.www.net`. -/
theorem domain_resolver_replaces_all_www :
    getDomainName "http://e.www.net" = "e.net" ∧
    resolveSpecC9 "http://e.www.net" = "e.www.net" ∧
    getDomainName "http://e.www.net" ≠ resolveSpecC9 "http://e.www.net" :=
  ⟨by decide, by decide, by decide⟩

/-- Search-response normalization as the code actually implements it
(amended claim C6): only an object whose `data` field is a list is
accepted; every other shape — including a bare list (whose `.get` raises
AttributeError, caught by the handler) and an object carrying only a
`results` list — yields the empty sequence, never an exception. -/
def normalizeSearchAmended (j : Json) : List Json :=
  match j with
  | .obj kvs =>
    match kvs.lookup "data" with
    | some (.arr l) =>
      match extractDescriptors l with
      | .ok ds => ds
      | .error _ => []
    | _ => []
  | _ => []

/-- C6 (amended): for every decoded search-collaborator response,
`_search_for_review_pages` accepts exactly the object-with-`data`-list
shape; bare sequences and `results`-field objects are treated as empty
like any other shape. -/
theorem search_accepts_only_data_field_shape :
    ∀ j, searchForReviewPages (.ok j) = normalizeSearchAmended j := by
  intro j
  cases j with
  | null => rfl
  | bool b => cases b <;> rfl
  | num n =>
    unfold searchForReviewPages searchBody normalizeSearchAmended
    cases hn : ((n : Int) != 0) <;> simp [Json.truthy, Json.pyGet, hn]
  | str s =>
    unfold searchForReviewPages searchBody normalizeSearchAmended
    cases hn : (s != "") <;> simp [Json.truthy, Json.pyGet, hn]
  | arr l =>
    unfold searchForReviewPages searchBody normalizeSearchAmended
    cases hn : l.isEmpty <;> simp [Json.truthy, Json.pyGet, hn]
  | obj kvs =>
    cases kvs with
    | nil => rfl
    | cons p ps =>
      unfold searchForReviewPages searchBody normalizeSearchAmended
      simp only [Json.truthy, List.isEmpty_cons, Bool.not_false, if_true, Json.pyGet]
      cases hd : List.lookup "data" (p :: ps) with
      | none => simp [hd]
      | some v => cases v <;> simp [hd]

/-- Search-response normalization following the words of claim C6:
accept, in priority order, a bare list, an object `data` list, then an
object `results` list. -/
def normalizeSearchSpecC6 (j : Json) : List Json :=
  match j with
  | .arr l =>
    match extractDescriptors l with
    | .ok ds => ds
    | .error _ => []
  | .obj kvs =>
    match kvs.lookup "data" with
    | some (.arr l) =>
      match extractDescriptors l with
      | .ok ds => ds
      | .error _ => []
    | _ =>
      match kvs.lookup "results" with
      | some (.arr l) =>
        match extractDescriptors l with
        | .ok ds => ds
        | .error _ => []
      | _ => []
  | _ => []

/-- A well-formed search result object. -/
def goodSearchResult : Json := .obj [("url", .str "http://x.com/r"), ("title", .str "R")]

/-- C6 counterexample: given a bare list of result objects, or an object
with a `results` list, the code returns the empty sequence, while the
claimed normalization accepts both shapes. -/
theorem search_rejects_bare_and_results_shapes :
    (searchForReviewPages (.ok (.arr [goodSearchResult]))).length = 0 ∧
    (normalizeSearchSpecC6 (.arr [goodSearchResult])).length = 1 ∧
    (searchForReviewPages (.ok (.obj [("results", .arr [goodSearchResult])]))).length = 0 ∧
    (normalizeSearchSpecC6 (.obj [("results", .arr [goodSearchResult])])).length = 1 :=
  ⟨rfl, rfl, rfl, rfl⟩

/-- C7 (amended): for a response whose `data` field is an object,
`_scrape_reviews_from_page` consults `data.llm_extraction` first and
`data.extracted_data` second, selecting the first value that IS a list —
even an empty one.  An empty higher-priority list therefore short-circuits
the chain (the next shape is not consulted) and yields no records; the
priority order is fixed, but "first non-empty list" does not hold, and no
top-level `extract.data` shape is consulted. -/
theorem scrape_shape_priority_characterized :
    ∀ (dk : List (String × Json)) (pageUrl : Json) (n : Nat),
      scrapeReviewsFromPage pageUrl n (.ok (.obj [("data", .obj dk)])) =
        (match (dk.lookup "llm_extraction").getD .null with
         | .arr l => if l.isEmpty then [] else (processRecords pageUrl (l.take n)).1
         | _ =>
           match (dk.lookup "extracted_data").getD .null with
           | .arr l => if l.isEmpty then [] else (processRecords pageUrl (l.take n)).1
           | _ => []) := by
  intro dk u n
  unfold scrapeReviewsFromPage scrapeWithStatus chooseExtractedCode
  simp only [Json.truthy, List.isEmpty_cons, Bool.not_false, if_true, Json.pyGet,
    List.lookup, beq_self_eq_true, Option.getD_some]
  rcases h1 : (dk.lookup "llm_extraction").getD .null with _ | b | m | s | l | kvs2 <;>
    simp only [h1]
  case arr =>
    cases he : l.isEmpty <;> simp [he]
  all_goals
    rcases h2 : (dk.lookup "extracted_data").getD .null with _ | b2 | m2 | s2 | l2 | kvs3 <;>
      (simp only [h2]
       try cases he : l2.isEmpty <;> simp [he])

/-- Extraction payload `data` object in which the first shape is an empty
list and the second holds one valid record. -/
def shortCircuitData : List (String × Json) :=
  [("llm_extraction", .arr []),
   ("extracted_data", .arr [.obj [("review_text", .str "Solid.")]])]

/-- Payload chooser following the words of claim C7: use the first
non-empty list among the shapes in priority order. -/
def chooseExtractedSpecC7 (dk : List (String × Json)) : List Json :=
  match dk.lookup "llm_extraction" with
  | some (.arr (x :: xs)) => x :: xs
  | _ =>
    match dk.lookup "extracted_data" with
    | some (.arr (x :: xs)) => x :: xs
    | _ => []

/-- C7 counterexample: when `data.llm_extraction` is present but an empty
list, the code stops there and extracts nothing, while the claimed
normalization would consult the next shape and find one record. -/
theorem scrape_empty_first_shape_short_circuits :
    (scrapeReviewsFromPage (.str "http://r.com") 3
      (.ok (.obj [("data", .obj shortCircuitData)]))).length = 0 ∧
    (chooseExtractedSpecC7 shortCircuitData).length = 1 :=
  ⟨rfl, rfl⟩

/-- Every descriptor produced by the search comprehension carries a
truthy url. -/
theorem extractDescriptors_url_truthy :
    ∀ (l ds : List Json), extractDescriptors l = .ok ds →
      ∀ d ∈ ds, (d.attr "url").truthy = true := by
  intro l
  induction l with
  | nil =>
    intro ds h d hd
    simp only [extractDescriptors] at h
    injection h with h1
    subst h1
    simp at hd
  | cons r rs ih =>
    intro ds h d hd
    simp only [extractDescriptors] at h
    split at h
    · exact absurd h (by simp)
    · next u hequ =>
      split at h
      · next hu =>
        split at h
        · exact absurd h (by simp)
        · split at h
          · exact absurd h (by simp)
          · next rest hrest =>
            injection h with h1
            subst h1
            rcases List.mem_cons.mp hd with h2 | h2
            · rw [h2]
              exact hu
            · exact ih _ hrest d h2
      · exact ih _ h d hd

/-- A successful search try body yields either the empty list or a list
produced by the descriptor comprehension. -/
theorem searchBody_ok_cases (resp : Except PyErr Json) (ds : List Json)
    (h : searchBody resp = .ok ds) : ds = [] ∨ ∃ l, extractDescriptors l = .ok ds := by
  unfold searchBody at h
  split at h
  · exact absurd h (by simp)
  · split at h
    · split at h
      · exact absurd h (by simp)
      · exact Or.inr ⟨_, h⟩
      · injection h with h1
        exact Or.inl h1.symm
    · injection h with h1
      exact Or.inl h1.symm

/-- C10 (amended): `_search_for_review_pages` itself filters out search
results lacking a truthy url — every descriptor it returns carries one —
so the aggregator's own url check never fires on searcher-produced
descriptors; the searcher is not permissive about missing urls. -/
theorem search_descriptors_have_truthy_url :
    ∀ resp d, d ∈ searchForReviewPages resp → (d.attr "url").truthy = true := by
  intro resp d hd
  unfold searchForReviewPages at hd
  cases hb : searchBody resp with
  | error e =>
    rw [hb] at hd
    simp at hd
  | ok ds =>
    rw [hb] at hd
    rcases searchBody_ok_cases resp ds hb with h1 | ⟨l, h2⟩
    · subst h1
      simp at hd
    · exact extractDescriptors_url_truthy l ds h2 d hd

theorem search_descriptors_have_truthy_url_witness :
    (sampleDescriptor ∈ searchForReviewPages sampleSearchResp) ∧
    (sampleDescriptor.attr "url").truthy = true := by
  have hm : sampleDescriptor ∈ searchForReviewPages sampleSearchResp := by
    have he : searchForReviewPages sampleSearchResp = [sampleDescriptor] := rfl
    rw [he]
    exact List.mem_singleton.mpr rfl
  exact ⟨hm, search_descriptors_have_truthy_url sampleSearchResp _ hm⟩

/-- A search result with no url field at all. -/
def titleOnlyResult : Json := .obj [("title", .str "Only title")]

/-- Search-result reduction following the words of claim C10: permissive,
every result reduced to its url/title pair with no filtering. -/
def descriptorsPermissiveC10 (l : List Json) : List Json :=
  l.map (fun r => .obj [("url", r.attr "url"), ("title", r.attrD "title" (.str "Unknown Source"))])

/-- C10 counterexample: a search result without a usable url is dropped by
the searcher itself, not included for the aggregator to filter out. -/
theorem search_filters_urlless_results :
    (searchForReviewPages (.ok (.obj [("data", .arr [titleOnlyResult])]))).length = 0 ∧
    (descriptorsPermissiveC10 [titleOnlyResult]).length = 1 :=
  ⟨rfl, rfl⟩
